import Mathlib

/-!
Verification development for the `live-api-web-console` client.

The repository is a browser client for a multimodal streaming session
protocol.  This file gives a shallow embedding, in Lean, of the parts of
the code that the verified properties are about:

* the context-level `connect` guard of `SpeechContext.tsx` / the vision
  context;
* the consumer-side tool-call response handler of `Altair.tsx`;
* the `interrupted` handler of `SpeechContext.tsx`;
* `AudioRecorder.start` / `AudioRecorder.stop` (the stop-during-start race);
* the `content` handler of `Expresso.tsx`;
* the vision context's `sendFrame`, `maxFrames` clamp and `requestAnalysis`;
* `OpenAIVisionClient.analyzeFrames`;
* a model of the `MultimodalLiveClient` session state machine.  The class
  `MultimodalLiveClient` itself (file `src/lib/multimodal-live-client.ts`)
  is not part of the available sources — only its consumers are — so that
  component is modelled from the specification text, as indicated on each
  of its definitions.

Effectful TypeScript is embedded as explicit state passing: each handler
becomes a pure function from the pre-state (plus the outcome of any
platform primitive it awaits, such as `fetch` or `JSON.parse`) to the
post-state together with the list of observable calls it makes.
-/

namespace LiveConsole

/-! ## SpeechContext / VisionContext: the context-level connect guard

Source: `src/contexts/SpeechContext.tsx` lines 105-130, and the
structurally identical `connect` of the vision context (lines 193-221 of
that file). -/

/-- A call made by a context-level callback on the underlying
`MultimodalLiveClient`. -/
inductive ClientAction
  | clientConnect
  deriving DecidableEq, Repr

/-- The `connect` callback of `SpeechContext.tsx` (lines 105-130; the
vision context's `connect` has the same guard structure): when the
`connected` flag is already `true` it returns at once, calling nothing on
the client; otherwise it awaits `client.connect(config)` and sets
`connected := true` on success, `connected := false` in the catch branch.
`outcome` is whether the awaited `client.connect` resolves.  The result is
the new `connected` flag paired with the calls made on the client. -/
def speechConnect (connected : Bool) (outcome : Bool) : Bool × List ClientAction :=
  if connected then (connected, [])
  else (outcome, [ClientAction.clientConnect])

/-- A sequence of `connect` calls, threading the `connected` flag and
collecting every call made on the underlying client, in order. -/
def speechConnectSeq (connected : Bool) (outcomes : List Bool) :
    Bool × List ClientAction :=
  match outcomes with
  | [] => (connected, [])
  | o :: os =>
    let r := speechConnect connected o
    let rest := speechConnectSeq r.1 os
    (rest.1, r.2 ++ rest.2)

/-! ## Altair.tsx: consumer-side tool-call response handler

Source: `src/components/altair/Altair.tsx` lines 140-169 (the task-panel
variant in the unnamed sources has the identical response-sending tail). -/

/-- One function-call invocation received in a `toolcall` event. -/
structure FunctionCall where
  id : String
  name : String
  deriving DecidableEq, Repr

/-- The `output` object of the response payload the handler sends. -/
structure ToolOutput where
  success : Bool
  deriving DecidableEq, Repr

/-- The `response` object of one function response. -/
structure ToolResponsePayload where
  output : ToolOutput
  deriving DecidableEq, Repr

/-- One element of the `functionResponses` batch sent by
`client.sendToolResponse`. -/
structure FunctionResponse where
  response : ToolResponsePayload
  id : String
  deriving DecidableEq, Repr

/-- The response built for one received call in `Altair.tsx` lines 156-159:
`{ response: { output: { success: true } }, id: fc.id }`. -/
def altairResponse (fc : FunctionCall) : FunctionResponse :=
  { response := { output := { success := true } }, id := fc.id }

/-- The batches passed to `client.sendToolResponse` by the `onToolCall`
handler of `Altair.tsx` (lines 152-163): when `functionCalls` is non-empty
(JS truthiness of its length) exactly one batch is sent, mapping every
received call to `altairResponse`; otherwise nothing is sent.  The 200 ms
`setTimeout` delay is not modelled — only which batches are sent. -/
def onToolCallBatches (functionCalls : List FunctionCall) :
    List (List FunctionResponse) :=
  if functionCalls.length ≠ 0 then
    [functionCalls.map altairResponse]
  else []

/-! ## SpeechContext.tsx: the `interrupted` handler

Source: `src/contexts/SpeechContext.tsx` lines 72-93: the handler
`stopAudioStreamer` is registered for the `interrupted` event; it calls
`audioStreamerRef.current.stop()` when the streamer exists and then
`setSpeaking(false)`. -/

/-- State of the output `AudioStreamer`: the queue of decoded PCM chunks
not yet played, and whether playback is running. -/
structure AudioStreamerState where
  queue : List Nat
  playing : Bool
  deriving DecidableEq, Repr

/-- Modelled from the spec: `AudioStreamer.stop` (file
`src/lib/audio-streamer.ts`, absent from the available sources).  Per the
specification, consumers treat `interrupted` as "stop playing previously
queued audio immediately": `stop` halts playback and discards every queued
but unplayed chunk. -/
def audioStreamerStop (_s : AudioStreamerState) : AudioStreamerState :=
  { queue := [], playing := false }

/-- The `stopAudioStreamer` handler of `SpeechContext.tsx` lines 72-77,
run on every `interrupted` event: stops the audio streamer when present
(`audioStreamerRef.current` may still be null before initialisation) and
sets the `speaking` flag to false.  Returns the new streamer state and the
new `speaking` flag. -/
def onInterrupted (streamer : Option AudioStreamerState) (_speaking : Bool) :
    Option AudioStreamerState × Bool :=
  (streamer.map audioStreamerStop, false)

/-! ## AudioRecorder: stop during a pending start

Source: the `AudioRecorder` class of the unnamed sources (`part_001`),
`start` lines 48-128, `stop` lines 130-151. -/

/-- State of an `AudioRecorder` instance: the fields `stop` releases.
Media tracks are identified by numbers; worklet handles are modelled by
presence. -/
structure RecorderState where
  stream : Option (List Nat)
  sourceConnected : Bool
  recording : Bool
  recordingWorklet : Option Nat
  vuWorklet : Option Nat
  deriving DecidableEq, Repr

/-- The settled outcome of the `starting` promise created by
`AudioRecorder.start`: either the executor resolved or it rejected, and in
both cases `this` at settlement time holds some `RecorderState` (on
rejection, whatever partial assignments had happened). -/
inductive StartOutcome
  | resolved (s : RecorderState)
  | rejected (s : RecorderState)
  deriving DecidableEq, Repr

/-- The recorder state at the moment the pending start settles. -/
def StartOutcome.settleState : StartOutcome → RecorderState
  | .resolved s => s
  | .rejected s => s

/-- The `handleStop` closure of `AudioRecorder.stop` (lines 133-142):
disconnects the source, stops every track of the current stream, and
clears `stream`, `recordingWorklet`, `vuWorklet` and `recording`.  Returns
the new state together with the ids of the tracks that were stopped. -/
def handleStop (s : RecorderState) : RecorderState × List Nat :=
  ({ stream := none
     sourceConnected := false
     recording := false
     recordingWorklet := none
     vuWorklet := none }, s.stream.getD [])

/-- The method `AudioRecorder.stop` (lines 130-151).  When a `starting` promise is
pending, `handleStop` is deferred with `.then(handleStop).catch(() =>
handleStop())`, so it runs on the state the recorder holds once the start
settles — whether it resolved or rejected; with no pending start it runs
immediately on the current state. -/
def recorderStop (starting : Option StartOutcome) (s : RecorderState) :
    RecorderState × List Nat :=
  match starting with
  | none => handleStop s
  | some o => handleStop o.settleState

/-- The assignments the successful path of `AudioRecorder.start` (lines
54-119) has performed by the time it resolves: stream and both worklets
acquired, source connected, `recording` set to true. -/
def startResolvedState (tracks : List Nat) (rw vw : Nat) : RecorderState :=
  { stream := some tracks
    sourceConnected := true
    recording := true
    recordingWorklet := some rw
    vuWorklet := some vw }

/-! ## Expresso.tsx: the `content` handler of the task assistant

Source: `src/components/espresso/Expresso.tsx` lines 142-166 and the
`ResponseJson` interface of `TaskPanel.tsx`. -/

/-- One step of the task plan (`StepInfo` in `TaskPanel.tsx`). -/
structure StepInfo where
  text : String
  status : String
  deriving DecidableEq, Repr

/-- The JSON shape the task assistant expects from the model
(`ResponseJson` in `TaskPanel.tsx`). -/
structure ResponseJson where
  steps : List (String × StepInfo)
  currentStep : String
  currentStepDetailedDescription : String
  chatResponse : String
  currentStepExplanation : String
  deriving DecidableEq, Repr

/-- One part of a model turn; only the optional `text` field matters to
this handler. -/
structure Part where
  text : Option String
  deriving DecidableEq, Repr

/-- The `ServerContent` union as the consumer sees it: a model turn, an
interruption marker, or a turn-complete marker.  `isModelTurn` is the
match on the first constructor. -/
inductive ServerContent
  | modelTurn (parts : List Part)
  | interruptedMark
  | turnCompleteMark
  deriving DecidableEq, Repr

/-- JS truthiness of `part.text`: the field is present and non-empty. -/
def partHasText (p : Part) : Bool :=
  match p.text with
  | some s => s ≠ ""
  | none => false

/-- The code-fence markers stripped by the handlers
(`newText.replace(/\x60\x60\x60json|\x60\x60\x60/g, "")`). -/
def fenceJson : String := "```json"

/-- The bare code-fence marker. -/
def fenceBare : String := "```"

/-- One left-to-right pass of the global regex replace: at each position,
prefer the `fenceJson` alternative, then `fenceBare`, else keep the
character.  `fuel` bounds the recursion by the input length. -/
def stripFencesAux (fuel : Nat) (cs : List Char) : List Char :=
  match fuel, cs with
  | 0, rest => rest
  | _ + 1, [] => []
  | n + 1, c :: rest =>
    if fenceJson.toList.isPrefixOf (c :: rest) then
      stripFencesAux n ((c :: rest).drop fenceJson.length)
    else if fenceBare.toList.isPrefixOf (c :: rest) then
      stripFencesAux n ((c :: rest).drop fenceBare.length)
    else
      c :: stripFencesAux n rest

/-- The expression `s.replace(/\x60\x60\x60json|\x60\x60\x60/g, "").trim()` of the
handler. -/
def cleanFences (s : String) : String :=
  (String.mk (stripFencesAux s.length s.toList)).trim

/-- The state the `onContent` handler of `Expresso.tsx` reads and writes. -/
structure ExpressoState where
  latestRawText : String
  latestResponse : Option ResponseJson
  deriving DecidableEq, Repr

/-- The text joined from a model turn's parts:
`parts.filter(p => p.text).map(p => p.text).join("\n")`. -/
def joinedText (parts : List Part) : String :=
  String.intercalate "\n"
    ((parts.filter partHasText).map (fun p => p.text.getD ""))

/-- The `onContent` handler of `Expresso.tsx` lines 144-166.  `parse`
stands for the platform primitive `JSON.parse` (typed against
`ResponseJson`); `none` is the thrown-`SyntaxError` case, which the
handler catches and only logs.  When content is a model turn with at least
one truthy text part, `latestRawText` is set to the joined text
unconditionally; `latestResponse` is set only when the cleaned text
parses. -/
def onContent (parse : String → Option ResponseJson) (s : ExpressoState)
    (content : ServerContent) : ExpressoState :=
  match content with
  | .modelTurn parts =>
    let textParts := parts.filter partHasText
    if textParts.length > 0 then
      let newText := joinedText parts
      match parse (cleanFences newText) with
      | some j => { latestRawText := newText, latestResponse := some j }
      | none => { latestRawText := newText, latestResponse := s.latestResponse }
    else s
  | _ => s

/-! ## The vision context: frame buffer and analysis request

Source: the vision context of the unnamed sources (`part_008`):
`sendFrame` lines 231-247, the `maxFrames` clamp effect lines 84-90,
`requestAnalysis` lines 259-306. -/

/-- Which vision model is selected. -/
inductive VisionModel
  | openai
  | google
  deriving DecidableEq, Repr

/-- The slice of the vision context state that `sendFrame` and
`requestAnalysis` read and write. -/
structure VisionState where
  framesBuffer : List String
  frameBuffer : List String
  maxFrames : Nat
  isVisionEnabled : Bool
  connected : Bool
  analyzing : Bool
  lastDescription : Option String
  lastFrameData : Option String
  currentModel : VisionModel
  hasOpenAIClient : Bool
  openAIConnected : Bool
  deriving DecidableEq, Repr

/-- The initial vision context state (`useState` initialisers of the
provider: empty buffers, `maxFrames = 10`, vision enabled, OpenAI
selected, nothing connected). -/
def visionInit : VisionState :=
  { framesBuffer := []
    frameBuffer := []
    maxFrames := 10
    isVisionEnabled := true
    connected := false
    analyzing := false
    lastDescription := none
    lastFrameData := none
    currentModel := .openai
    hasOpenAIClient := false
    openAIConnected := false }

/-- JavaScript's `s.indexOf(",")`: index of the first comma, `-1` when
absent, here as an `Option`. -/
def commaIdx (s : String) : Option Nat :=
  s.toList.findIdx? (fun c => c = ',')

/-- The fixpoint of the `maxFrames` validation effect (lines 84-90): a
value below 5 is raised to 5, one above 30 lowered to 30, and the effect
re-runs after each `setMaxFrames` until it no longer fires. -/
def clampMaxFrames (m : Nat) : Nat :=
  if m < 5 then 5 else if m > 30 then 30 else m

/-- A `setMaxFrames` call followed by the validation effect. -/
def setMaxFramesOp (s : VisionState) (m : Nat) : VisionState :=
  { s with maxFrames := clampMaxFrames m }

/-- The callback `sendFrame` (lines 231-247): when vision is enabled, store the
display copy (`lastFrameData`, prefixed into a data URL unless the input
already has a comma at positive index), push the raw argument onto
`framesBufferRef`, and drop the oldest frame when the buffer exceeds
`maxFrames`. -/
def sendFrame (s : VisionState) (base64 : String) : VisionState :=
  if !s.isVisionEnabled then s
  else
    let data :=
      match commaIdx base64 with
      | some i => if i > 0 then base64 else "data:image/jpeg;base64," ++ base64
      | none => "data:image/jpeg;base64," ++ base64
    let pushed := s.framesBuffer ++ [base64]
    let buf := if pushed.length > s.maxFrames then pushed.tail else pushed
    { s with lastFrameData := some data, framesBuffer := buf }

/-- The expression `frame.slice(frame.indexOf(",") + 1, Infinity)` of the Google path of
`requestAnalysis` (line 294): everything after the first comma; with no
comma, `indexOf` is `-1` and the slice starts at 0, returning the whole
string. -/
def sliceAfterComma (f : String) : String :=
  match commaIdx f with
  | some i => String.mk (f.toList.drop (i + 1))
  | none => f

/-- An outbound call made by `requestAnalysis`. -/
inductive VisionCall
  | sendRealtimeInput (mimeType : String) (data : String)
  | sendText (text : String) (turnComplete : Bool)
  | openAIAnalyze (frames : List String) (prompt : String)
  deriving DecidableEq, Repr

/-- The message set on the empty-buffer path of `requestAnalysis`. -/
def noFramesMsg : String :=
  "No frames available for analysis. Please enable camera access."

/-- The message set when no vision API is connected. -/
def noApiMsg : String :=
  "Error: No vision API connected. Please check API connections."

/-- The callback `requestAnalysis` (lines 259-306): guard on `isVisionEnabled`; set
`analyzing`; with an empty frame buffer set an explanatory description,
clear `analyzing` and return with no outbound call; otherwise publish the
buffer to the `frameBuffer` state and dispatch — to the OpenAI client when
it is selected, present and connected; else, when the Google client is
connected, one `sendRealtimeInput` per buffered frame in buffer order
followed by one `send` of the prompt with `turnComplete = true`; else set
an error description and clear `analyzing`.  Returns the new state and the
outbound calls in order. -/
def requestAnalysis (s : VisionState) (prompt : String) :
    VisionState × List VisionCall :=
  if !s.isVisionEnabled then (s, [])
  else
    let s1 := { s with analyzing := true }
    let frames := s1.framesBuffer
    if frames.length = 0 then
      ({ s1 with lastDescription := some noFramesMsg, analyzing := false }, [])
    else
      let s2 := { s1 with frameBuffer := frames }
      if s2.currentModel = .openai ∧ s2.hasOpenAIClient ∧ s2.openAIConnected then
        (s2, [.openAIAnalyze frames prompt])
      else if s2.connected then
        (s2,
          frames.map (fun f => .sendRealtimeInput "image/jpeg" (sliceAfterComma f))
            ++ [.sendText prompt true])
      else
        ({ s2 with lastDescription := some noApiMsg, analyzing := false }, [])

/-! ## OpenAIVisionClient.analyzeFrames

Source: `src/lib/openai-vision-client.ts` lines 40-144. -/

/-- The outcome of the awaited `fetch` (together with the subsequent
`response.json()` reads): either the network/parse layer rejected, or an
HTTP response arrived with its `ok` flag, its error body (as stringified
for the non-OK branch) and the optional
`data.choices?.[0]?.message?.content` text. -/
inductive FetchOutcome
  | networkError (msg : String)
  | httpResponse (ok : Bool) (errorBody : String) (contentText : Option String)
  deriving DecidableEq, Repr

/-- An event emitted by `OpenAIVisionClient`. -/
inductive VisionEvent
  | responseEv (videoDescription : String)
  | errorEv (msg : String)
  deriving DecidableEq, Repr

/-- The method `analyzeFrames` (lines 40-144), as a function of the frame list and
the `fetch` outcome.  The first component records whether a network
request was made; the second is the list of events emitted.  The
early-return on an empty frame list emits an error without fetching; the
`try/catch` around the request turns every throw (non-OK response, missing
response text, network failure) into an `error` event; on success exactly
one `response` event carries the text as `videoDescription`. -/
def analyzeFrames (frames : List String) (_prompt : String)
    (fetch : FetchOutcome) : Bool × List VisionEvent :=
  if frames.length = 0 then
    (false, [.errorEv "No frames provided for analysis"])
  else
    match fetch with
    | .networkError msg => (true, [.errorEv msg])
    | .httpResponse ok errorBody contentText =>
      if !ok then
        (true, [.errorEv ("OpenAI API error: " ++ errorBody)])
      else
        match contentText with
        | some t => (true, [.responseEv t])
        | none => (true, [.errorEv "No response text received from OpenAI"])

/-! ## The session client state machine

The class `MultimodalLiveClient` (`src/lib/multimodal-live-client.ts`) is
not among the available sources — only its consumers import it — so this
component is modelled from the specification: the Connection State
machine, the setup-first send discipline, and log-and-continue on
unparsable frames. -/

/-- Modelled from the spec: the Connection State of the Session Client
(`Idle`, `Connecting`, `Open`, `Closed`). -/
inductive ConnState
  | idle
  | connecting
  | opened
  | closed
  deriving DecidableEq, Repr

/-- Modelled from the spec: the outbound wire frames of the Message Codec
(payloads are irrelevant to the properties proved here). -/
inductive ClientFrame
  | setupFrame
  | clientContent
  | realtimeInput
  | toolResponse
  deriving DecidableEq, Repr

/-- Modelled from the spec: the decoded inbound message variants, plus
`parseError` for a frame with an unrecognised top-level key. -/
inductive InMsg
  | setupCompleteMsg
  | serverContentMsg
  | toolCallMsg
  | toolCallCancellationMsg
  | parseError
  deriving DecidableEq, Repr

/-- Modelled from the spec: the events the Session Client emits to
consumers. -/
inductive Ev
  | openEv
  | closeEv
  | contentEv
  | toolcallEv
  | toolcallcancellationEv
  | logEv
  deriving DecidableEq, Repr

/-- Modelled from the spec: `decode` of the Message Codec inspects the
top-level key of the raw frame to select a variant (`setupComplete`,
`serverContent`, `toolCall`, `toolCallCancellation`) and returns a typed
`ParseError` for anything else. -/
def decode (key : String) : InMsg :=
  if key = "setupComplete" then .setupCompleteMsg
  else if key = "serverContent" then .serverContentMsg
  else if key = "toolCall" then .toolCallMsg
  else if key = "toolCallCancellation" then .toolCallCancellationMsg
  else .parseError

/-- Modelled from the spec: the observable state of one Session Client —
Connection State, the frames written to the current connection's
transport in order, the events emitted in order, whether `SetupComplete`
has been received on the current connection, and whether the current
connection's transport socket has reached its open state (inbound frames
can only be delivered by an open socket). -/
structure ClientState where
  conn : ConnState
  sent : List ClientFrame
  events : List Ev
  setupDone : Bool
  transportUp : Bool
  deriving DecidableEq, Repr

/-- Modelled from the spec: the initial Session Client state. -/
def clientInit : ClientState :=
  { conn := .idle, sent := [], events := [], setupDone := false,
    transportUp := false }

/-- Modelled from the spec: the stimuli the Session Client reacts to —
caller operations, transport callbacks, and inbound raw frames (given by
their top-level key). -/
inductive Act
  | connectCall
  | transportOpened
  | recvRaw (key : String)
  | sendContentCall
  | sendRealtimeCall
  | sendToolResponseCall
  | disconnectCall
  | transportError
  deriving DecidableEq, Repr

/-- Modelled from the spec: one step of the Session Client.
`connect()` while `Connecting` or `Open` is a no-op; otherwise it opens a
fresh transport and enters `Connecting`.  On transport open the client
itself sends exactly one `Setup` frame — the caller has no operation that
sends one.  `SetupComplete` received while `Connecting` yields `Open` and
an `open` event.  The outbound operations write their frame only when
`Open` (otherwise they are rejected with `NotConnected` and write
nothing).  An unparsable frame only emits `log`.  `disconnect()` and
transport errors force `Closed` and emit `close`. -/
def step (s : ClientState) (a : Act) : ClientState :=
  match a with
  | .connectCall =>
    if s.conn = .connecting ∨ s.conn = .opened then s
    else { conn := .connecting, sent := [], events := s.events,
           setupDone := false, transportUp := false }
  | .transportOpened =>
    if s.conn = .connecting then
      { s with transportUp := true, sent := s.sent ++ [.setupFrame] }
    else s
  | .recvRaw key =>
    if s.transportUp = false then s
    else
      match decode key with
      | .setupCompleteMsg =>
        if s.conn = .connecting then
          { s with conn := .opened, setupDone := true,
                   events := s.events ++ [.openEv] }
        else s
      | .serverContentMsg => { s with events := s.events ++ [.contentEv] }
      | .toolCallMsg => { s with events := s.events ++ [.toolcallEv] }
      | .toolCallCancellationMsg =>
        { s with events := s.events ++ [.toolcallcancellationEv] }
      | .parseError => { s with events := s.events ++ [.logEv] }
  | .sendContentCall =>
    if s.conn = .opened then { s with sent := s.sent ++ [.clientContent] } else s
  | .sendRealtimeCall =>
    if s.conn = .opened then { s with sent := s.sent ++ [.realtimeInput] } else s
  | .sendToolResponseCall =>
    if s.conn = .opened then { s with sent := s.sent ++ [.toolResponse] } else s
  | .disconnectCall =>
    { s with conn := .closed, transportUp := false,
             events := s.events ++ [.closeEv] }
  | .transportError =>
    if s.conn = .connecting ∨ s.conn = .opened then
      { s with conn := .closed, transportUp := false,
               events := s.events ++ [.closeEv] }
    else s

/-- Modelled from the spec: running the Session Client over a list of
stimuli. -/
def run (s : ClientState) (acts : List Act) : ClientState :=
  acts.foldl step s

/-- The inductive invariant of the Session Client model: the first frame
written on the current connection (if any) is the `Setup` frame; before
`SetupComplete` arrives only the `Setup` frame has been written; an open
transport and an `Open` connection each imply something has been written
(namely the `Setup` frame the client wrote on transport open); and the
connection is `Open` only after `SetupComplete`. -/
def ClientInv (s : ClientState) : Prop :=
  (∀ f, s.sent.head? = some f → f = ClientFrame.setupFrame) ∧
  (s.setupDone = false → ∀ f ∈ s.sent, f = ClientFrame.setupFrame) ∧
  (s.transportUp = true → s.sent ≠ []) ∧
  (s.conn = ConnState.opened → s.sent ≠ []) ∧
  (s.conn = ConnState.opened → s.setupDone = true)

/-- A concrete vision-context state used to exercise `requestAnalysis` on
the Google path: two buffered frames, Google model selected, Google
client connected. -/
def visionGoogleSample : VisionState :=
  { visionInit with
      framesBuffer := ["a,bb", "cc"]
      connected := true
      currentModel := VisionModel.google }

/-- The vision-context state after seven `sendFrame` calls from the
initial state. -/
def visionSeven : VisionState :=
  List.foldl sendFrame visionInit ["f1", "f2", "f3", "f4", "f5", "f6", "f7"]

/-- The state `visionSeven` after `setMaxFrames(3)` (clamped to 5) and one more
`sendFrame`. -/
def visionEight : VisionState :=
  sendFrame (setMaxFramesOp visionSeven 3) "f8"

/-- A concrete healthy open session used to exercise the parse-failure
path. -/
def openSession : ClientState :=
  { conn := ConnState.opened, sent := [ClientFrame.setupFrame],
    events := [Ev.openEv], setupDone := true, transportUp := true }

/-! ## Theorems -/

/-- C1: while the consumer's `connected` flag is true, any sequence of
context-level `connect` calls returns immediately, never invokes the
underlying client's `connect`, and leaves the flag true — so no further
transport connection or `Setup` frame can result from such calls. -/
theorem connect_idempotent_while_connected (connected : Bool)
    (outcomes : List Bool) (h : connected = true) :
    speechConnectSeq connected outcomes = (true, []) := by
  subst h
  induction outcomes with
  | nil => rfl
  | cons o os ih => simp [speechConnectSeq, speechConnect, ih]

/-- Witness for C1: three `connect` calls while connected make no call on
the client. -/
theorem connect_idempotent_while_connected_witness :
    speechConnectSeq true [true, false, true] = (true, []) :=
  connect_idempotent_while_connected true [true, false, true] rfl

/-- The ids of the responses the Altair handler builds are exactly the
ids of the received calls, in order. -/
theorem altairResponse_map_id (calls : List FunctionCall) :
    (calls.map altairResponse).map FunctionResponse.id =
      calls.map FunctionCall.id := by
  induction calls with
  | nil => rfl
  | cons c cs ih => simp [altairResponse, ih]

/-- C3: on a `toolcall` event with a non-empty `functionCalls` list the
handler sends exactly one batch; the batch maps every received call to
one response, positionally, so the response ids are exactly the call ids
in order, every response carries `{output: {success: true}}`, and — the
inbound data model giving every call a unique id — no id appears twice in
the batch. -/
theorem toolcall_single_batch (calls : List FunctionCall)
    (hne : calls ≠ [])
    (hnodup : (calls.map FunctionCall.id).Nodup) :
    onToolCallBatches calls = [calls.map altairResponse] ∧
    (calls.map altairResponse).map FunctionResponse.id =
      calls.map FunctionCall.id ∧
    (∀ r ∈ calls.map altairResponse,
      r.response = { output := { success := true } }) ∧
    ((calls.map altairResponse).map FunctionResponse.id).Nodup := by
  refine ⟨?_, altairResponse_map_id calls, ?_, ?_⟩
  · simp [onToolCallBatches, hne]
  · intro r hr
    rcases List.mem_map.mp hr with ⟨fc, _, rfl⟩
    rfl
  · rw [altairResponse_map_id]
    exact hnodup

/-- Witness for C3: a single call with id "1" yields the single expected
batch. -/
theorem toolcall_single_batch_witness :
    onToolCallBatches [{ id := "1", name := "update_task_progress" }] =
      [[{ response := { output := { success := true } }, id := "1" }]] :=
  (toolcall_single_batch [{ id := "1", name := "update_task_progress" }]
    (by simp) (by simp)).1

/-- C4: on every `interrupted` event the handler stops the audio streamer
— discarding every queued but unplayed chunk and halting playback, so
nothing queued before the interruption can still be played — and sets the
`speaking` flag to false (the streamer, if not yet initialised, is simply
absent). -/
theorem interrupted_stops_playback (streamer : Option AudioStreamerState)
    (speaking : Bool) :
    (onInterrupted streamer speaking).2 = false ∧
    (∀ st, (onInterrupted streamer speaking).1 = some st →
      st.queue = [] ∧ st.playing = false) := by
  cases streamer with
  | none => exact ⟨rfl, by intro st h; cases h⟩
  | some st0 =>
    refine ⟨rfl, ?_⟩
    intro st h
    cases h
    exact ⟨rfl, rfl⟩

/-- Witness for C4: a streamer with two queued chunks, currently playing,
is emptied and silenced. -/
theorem interrupted_stops_playback_witness :
    ({ queue := [7, 8], playing := true } : AudioStreamerState).queue ≠ [] ∧
    (onInterrupted (some { queue := [7, 8], playing := true }) true).2 = false :=
  ⟨by simp,
   (interrupted_stops_playback (some { queue := [7, 8], playing := true })
     true).1⟩

/-- C6: a `stop` issued while a `starting` promise is pending defers
`handleStop` until the promise settles and then releases everything, on
the state the recorder holds at settlement: `stream`, `recordingWorklet`
and `vuWorklet` become undefined, the source is disconnected, `recording`
becomes false, and every track of the settle-time stream is stopped —
whether the pending start resolved or rejected. -/
theorem stop_during_pending_start (o : StartOutcome) (s : RecorderState) :
    (recorderStop (some o) s).1.stream = none ∧
    (recorderStop (some o) s).1.recordingWorklet = none ∧
    (recorderStop (some o) s).1.vuWorklet = none ∧
    (recorderStop (some o) s).1.recording = false ∧
    (recorderStop (some o) s).1.sourceConnected = false ∧
    (recorderStop (some o) s).2 = o.settleState.stream.getD [] := by
  cases o <;>
    simp [recorderStop, handleStop, StartOutcome.settleState]

/-- C7: when a model turn's joined text fails to parse as JSON (after
stripping code fences) the handler still updates `latestRawText` to the
new text but leaves `latestResponse` unchanged; the parse failure is
caught inside the handler (the embedding is total — the `none` branch is
the caught exception). -/
theorem content_parse_failure_keeps_response
    (parse : String → Option ResponseJson) (s : ExpressoState)
    (parts : List Part)
    (hne : (parts.filter partHasText).length > 0)
    (hfail : parse (cleanFences (joinedText parts)) = none) :
    onContent parse s (ServerContent.modelTurn parts) =
      { latestRawText := joinedText parts,
        latestResponse := s.latestResponse } := by
  simp [onContent, hne, hfail]

/-- Witness for C7: with a parser that always fails, a turn carrying the
text "hi" updates the raw text and keeps the stored response. -/
theorem content_parse_failure_keeps_response_witness :
    (([{ text := some "hi" }] : List Part).filter partHasText).length > 0 ∧
    onContent (fun _ => none)
        { latestRawText := "old", latestResponse := none }
        (ServerContent.modelTurn [{ text := some "hi" }]) =
      { latestRawText := joinedText [{ text := some "hi" }],
        latestResponse := none } :=
  ⟨by decide,
   content_parse_failure_keeps_response (fun _ => none)
     { latestRawText := "old", latestResponse := none }
     [{ text := some "hi" }] (by decide) rfl⟩

/-- Counterexample to C9 as stated: from the initial state, buffer seven
frames (`maxFrames = 10`), lower `maxFrames` to 3 (clamped to 5), then
`sendFrame` once more — one call evicts only one frame, so the buffer
holds 7 frames while `maxFrames` is 5, refuting "after every sendFrame
call, the buffer's length is at most maxFrames". -/
theorem sendFrame_bound_counterexample :
    ¬(visionEight.framesBuffer.length ≤ visionEight.maxFrames) := by
  decide

/-- C9 (amended): after a `sendFrame` call with vision enabled (and
`maxFrames ≥ 1`, guaranteed by the clamp), the buffer length is at most
the larger of `maxFrames` and its previous length — in particular at most
`maxFrames` whenever the previous buffer already respected the bound; the
supplied frame is the newest element; when the push exceeds the bound
exactly the oldest frame is evicted and otherwise nothing is evicted;
`maxFrames` is unchanged by `sendFrame` and the validation effect clamps
any requested value into `[5, 30]`. -/
theorem sendFrame_bounded_fifo (s : VisionState) (f : String) (m : Nat)
    (hen : s.isVisionEnabled = true) (hm : 1 ≤ s.maxFrames) :
    (sendFrame s f).framesBuffer.length ≤
      max s.maxFrames s.framesBuffer.length ∧
    (s.framesBuffer.length ≤ s.maxFrames →
      (sendFrame s f).framesBuffer.length ≤ s.maxFrames) ∧
    (sendFrame s f).framesBuffer.getLast? = some f ∧
    (s.framesBuffer.length + 1 > s.maxFrames →
      (sendFrame s f).framesBuffer = s.framesBuffer.tail ++ [f]) ∧
    (s.framesBuffer.length + 1 ≤ s.maxFrames →
      (sendFrame s f).framesBuffer = s.framesBuffer ++ [f]) ∧
    (sendFrame s f).maxFrames = s.maxFrames ∧
    5 ≤ clampMaxFrames m ∧ clampMaxFrames m ≤ 30 := by
  have hclamp : 5 ≤ clampMaxFrames m ∧ clampMaxFrames m ≤ 30 := by
    unfold clampMaxFrames
    split
    · omega
    · split <;> omega
  have hmx : (sendFrame s f).maxFrames = s.maxFrames := by
    simp [sendFrame, hen]
  cases hbuf : s.framesBuffer with
  | nil =>
    have hnot : ¬s.maxFrames < 0 + 1 + 1 - 1 := by omega
    have hb : (sendFrame s f).framesBuffer = [f] := by
      simp [sendFrame, hen, hbuf]
      omega
    refine ⟨?_, ?_, ?_, ?_, ?_, hmx, hclamp.1, hclamp.2⟩
    · rw [hb]
      simp
      omega
    · intro _
      rw [hb]
      simpa using hm
    · rw [hb]
      rfl
    · intro _
      rw [hb]
      rfl
    · intro _
      rw [hb]
      rfl
  | cons a t =>
    rcases Nat.lt_or_ge s.maxFrames (t.length + 1 + 1) with hover | hunder
    · have hb : (sendFrame s f).framesBuffer = t ++ [f] := by
        simp [sendFrame, hen, hbuf, hover]
      refine ⟨?_, ?_, ?_, ?_, ?_, hmx, hclamp.1, hclamp.2⟩
      · rw [hb]
        simp
      · intro hle
        rw [hb]
        simp at hle ⊢
        omega
      · rw [hb]
        exact List.getLast?_concat _
      · intro _
        rw [hb]
        rfl
      · intro hcon
        simp at hcon
        omega
    · have hnot : ¬s.maxFrames < t.length + 1 + 1 :=
        Nat.not_lt.mpr hunder
      have hb : (sendFrame s f).framesBuffer = a :: (t ++ [f]) := by
        simp [sendFrame, hen, hbuf, hnot]
      refine ⟨?_, ?_, ?_, ?_, ?_, hmx, hclamp.1, hclamp.2⟩
      · rw [hb]
        simp
        omega
      · intro _
        rw [hb]
        simp
        omega
      · rw [hb, ← List.cons_append]
        exact List.getLast?_concat _
      · intro hcon
        simp at hcon
        omega
      · intro _
        rw [hb]
        rfl

/-- Witness for C9 (amended): one frame pushed into the fresh buffer is
its newest (and only) element, and the bound is respected. -/
theorem sendFrame_bounded_fifo_witness :
    visionInit.isVisionEnabled = true ∧ 1 ≤ visionInit.maxFrames ∧
    (sendFrame visionInit "x").framesBuffer.getLast? = some "x" :=
  ⟨rfl, by decide,
   (sendFrame_bounded_fifo visionInit "x" 3 rfl (by decide)).2.2.1⟩

/-- C10: `analyzeFrames` is total (never throws or rejects) and emits
exactly one event per call; with an empty frame list it makes no network
request and emits an `error` event; every failure of the request — network
rejection, non-OK HTTP status, missing response text — becomes an `error`
event; and on success it emits exactly one `response` event carrying the
response text. -/
theorem analyzeFrames_event_discipline (frames : List String)
    (prompt : String) (fetch : FetchOutcome) :
    (analyzeFrames frames prompt fetch).2.length = 1 ∧
    (frames = [] →
      analyzeFrames frames prompt fetch =
        (false, [VisionEvent.errorEv "No frames provided for analysis"])) ∧
    (∀ eb t, frames ≠ [] →
      fetch = FetchOutcome.httpResponse true eb (some t) →
      analyzeFrames frames prompt fetch = (true, [VisionEvent.responseEv t])) ∧
    (∀ msg, frames ≠ [] → fetch = FetchOutcome.networkError msg →
      analyzeFrames frames prompt fetch = (true, [VisionEvent.errorEv msg])) ∧
    (∀ eb ct, frames ≠ [] →
      fetch = FetchOutcome.httpResponse false eb ct →
      analyzeFrames frames prompt fetch =
        (true, [VisionEvent.errorEv ("OpenAI API error: " ++ eb)])) ∧
    (∀ eb, frames ≠ [] →
      fetch = FetchOutcome.httpResponse true eb none →
      analyzeFrames frames prompt fetch =
        (true,
          [VisionEvent.errorEv "No response text received from OpenAI"])) := by
  refine ⟨?_, ?_, ?_, ?_, ?_, ?_⟩
  · rcases frames with _ | ⟨g, gs⟩
    · rfl
    · rcases fetch with msg | ⟨ok, eb, ct⟩
      · rfl
      · rcases ok with _ | _
        · rfl
        · rcases ct with _ | t <;> rfl
  · intro h
    subst h
    rfl
  · intro eb t hne hf
    subst hf
    rcases frames with _ | ⟨g, gs⟩
    · exact absurd rfl hne
    · rfl
  · intro msg hne hf
    subst hf
    rcases frames with _ | ⟨g, gs⟩
    · exact absurd rfl hne
    · rfl
  · intro eb ct hne hf
    subst hf
    rcases frames with _ | ⟨g, gs⟩
    · exact absurd rfl hne
    · rfl
  · intro eb hne hf
    subst hf
    rcases frames with _ | ⟨g, gs⟩
    · exact absurd rfl hne
    · rfl

/-- Witness for C10: the empty-frames call makes no request and emits the
one error event. -/
theorem analyzeFrames_event_discipline_witness :
    analyzeFrames [] "p" (FetchOutcome.networkError "boom") =
      (false, [VisionEvent.errorEv "No frames provided for analysis"]) :=
  (analyzeFrames_event_discipline [] "p"
    (FetchOutcome.networkError "boom")).2.1 rfl

/-- C8: with vision enabled, a non-empty frame buffer, the OpenAI path
not taken and the Google client connected, `requestAnalysis` emits
exactly one `sendRealtimeInput` per buffered frame in buffer order
(oldest first) followed by exactly one `send` of the prompt with
`turnComplete = true`; with an empty buffer it emits nothing, sets the
explanatory description and clears the `analyzing` flag. -/
theorem requestAnalysis_google_dispatch (s : VisionState) (prompt : String)
    (hen : s.isVisionEnabled = true) :
    (s.framesBuffer ≠ [] →
      ¬(s.currentModel = VisionModel.openai ∧ s.hasOpenAIClient ∧
          s.openAIConnected) →
      s.connected = true →
      (requestAnalysis s prompt).2 =
        s.framesBuffer.map
            (fun f => VisionCall.sendRealtimeInput "image/jpeg"
              (sliceAfterComma f))
          ++ [VisionCall.sendText prompt true]) ∧
    (s.framesBuffer = [] →
      (requestAnalysis s prompt).2 = [] ∧
      (requestAnalysis s prompt).1.analyzing = false ∧
      (requestAnalysis s prompt).1.lastDescription = some noFramesMsg) := by
  constructor
  · intro h1 h2 h3
    simp [requestAnalysis, hen, h1, h2, h3]
  · intro h1
    simp [requestAnalysis, hen, h1]

/-- Witness for C8: two buffered frames on the Google path produce two
realtime-input calls followed by the prompt send. -/
theorem requestAnalysis_google_dispatch_witness :
    visionGoogleSample.isVisionEnabled = true ∧
    (requestAnalysis visionGoogleSample "look").2 =
      visionGoogleSample.framesBuffer.map
          (fun f => VisionCall.sendRealtimeInput "image/jpeg"
            (sliceAfterComma f))
        ++ [VisionCall.sendText "look" true] :=
  ⟨rfl,
   (requestAnalysis_google_dispatch visionGoogleSample "look" rfl).1
     (by decide) (by decide) rfl⟩

/-- The initial Session Client state satisfies the invariant. -/
theorem clientInv_init : ClientInv clientInit := by
  simp [ClientInv, clientInit]

/-- Appending one frame while `Open` preserves the invariant. -/
theorem clientInv_append_send (s : ClientState) (fr : ClientFrame)
    (h : ClientInv s) (hc : s.conn = ConnState.opened) :
    ClientInv { s with sent := s.sent ++ [fr] } := by
  obtain ⟨h1, h2, h3, h4, h5⟩ := h
  refine ⟨?_, ?_, ?_, ?_, ?_⟩
  · intro f hf
    replace hf : (s.sent ++ [fr]).head? = some f := hf
    cases hs : s.sent with
    | nil => exact absurd hs (h4 hc)
    | cons b bs =>
      have hbf : b = f := by
        rw [hs] at hf
        simpa using hf
      rw [← hbf]
      exact h1 b (by rw [hs]; rfl)
  · intro hd
    replace hd : s.setupDone = false := hd
    rw [h5 hc] at hd
    cases hd
  · intro _
    show s.sent ++ [fr] ≠ []
    simp
  · intro _
    show s.sent ++ [fr] ≠ []
    simp
  · intro _
    exact h5 hc

/-- Every step of the Session Client preserves the invariant. -/
theorem clientInv_step (s : ClientState) (a : Act) (h : ClientInv s) :
    ClientInv (step s a) := by
  obtain ⟨h1, h2, h3, h4, h5⟩ := h
  cases a with
  | connectCall =>
    by_cases hc : s.conn = ConnState.connecting ∨ s.conn = ConnState.opened
    · simp only [step, if_pos hc]
      exact ⟨h1, h2, h3, h4, h5⟩
    · simp only [step, if_neg hc]
      refine ⟨?_, ?_, ?_, ?_, ?_⟩
      · intro f hf
        simp at hf
      · intro _ f hf
        simp at hf
      · intro hup
        simp at hup
      · intro hop
        simp at hop
      · intro hop
        simp at hop
  | transportOpened =>
    by_cases hc : s.conn = ConnState.connecting
    · simp only [step, if_pos hc]
      refine ⟨?_, ?_, ?_, ?_, ?_⟩
      · intro f hf
        replace hf : (s.sent ++ [ClientFrame.setupFrame]).head? = some f := hf
        cases hs : s.sent with
        | nil =>
          rw [hs] at hf
          have : ClientFrame.setupFrame = f := by simpa using hf
          exact this.symm
        | cons b bs =>
          have hbf : b = f := by
            rw [hs] at hf
            simpa using hf
          rw [← hbf]
          exact h1 b (by rw [hs]; rfl)
      · intro hd f hf
        replace hd : s.setupDone = false := hd
        replace hf : f ∈ s.sent ++ [ClientFrame.setupFrame] := hf
        rcases List.mem_append.mp hf with hf | hf
        · exact h2 hd f hf
        · simpa using hf
      · intro _
        show s.sent ++ [ClientFrame.setupFrame] ≠ []
        simp
      · intro hop
        replace hop : s.conn = ConnState.opened := hop
        rw [hc] at hop
        cases hop
      · intro hop
        replace hop : s.conn = ConnState.opened := hop
        rw [hc] at hop
        cases hop
    · simp only [step, if_neg hc]
      exact ⟨h1, h2, h3, h4, h5⟩
  | recvRaw key =>
    by_cases hup : s.transportUp = false
    · simp only [step, if_pos hup]
      exact ⟨h1, h2, h3, h4, h5⟩
    · simp only [step, if_neg hup]
      cases hdec : decode key with
      | setupCompleteMsg =>
        by_cases hcn : s.conn = ConnState.connecting
        · simp only [if_pos hcn]
          refine ⟨h1, ?_, ?_, ?_, ?_⟩
          · intro hd
            cases hd
          · intro _
            exact h3 (by simpa using hup)
          · intro _
            exact h3 (by simpa using hup)
          · intro _
            rfl
        · simp only [if_neg hcn]
          exact ⟨h1, h2, h3, h4, h5⟩
      | serverContentMsg =>
        exact ⟨h1, h2, h3, h4, h5⟩
      | toolCallMsg =>
        exact ⟨h1, h2, h3, h4, h5⟩
      | toolCallCancellationMsg =>
        exact ⟨h1, h2, h3, h4, h5⟩
      | parseError =>
        exact ⟨h1, h2, h3, h4, h5⟩
  | sendContentCall =>
    by_cases hc : s.conn = ConnState.opened
    · simp only [step, if_pos hc]
      exact clientInv_append_send s ClientFrame.clientContent
        ⟨h1, h2, h3, h4, h5⟩ hc
    · simp only [step, if_neg hc]
      exact ⟨h1, h2, h3, h4, h5⟩
  | sendRealtimeCall =>
    by_cases hc : s.conn = ConnState.opened
    · simp only [step, if_pos hc]
      exact clientInv_append_send s ClientFrame.realtimeInput
        ⟨h1, h2, h3, h4, h5⟩ hc
    · simp only [step, if_neg hc]
      exact ⟨h1, h2, h3, h4, h5⟩
  | sendToolResponseCall =>
    by_cases hc : s.conn = ConnState.opened
    · simp only [step, if_pos hc]
      exact clientInv_append_send s ClientFrame.toolResponse
        ⟨h1, h2, h3, h4, h5⟩ hc
    · simp only [step, if_neg hc]
      exact ⟨h1, h2, h3, h4, h5⟩
  | disconnectCall =>
    simp only [step]
    refine ⟨h1, h2, ?_, ?_, ?_⟩
    · intro hup
      cases hup
    · intro hop
      cases hop
    · intro hop
      cases hop
  | transportError =>
    by_cases hc : s.conn = ConnState.connecting ∨ s.conn = ConnState.opened
    · simp only [step, if_pos hc]
      refine ⟨h1, h2, ?_, ?_, ?_⟩
      · intro hup
        cases hup
      · intro hop
        cases hop
      · intro hop
        cases hop
    · simp only [step, if_neg hc]
      exact ⟨h1, h2, h3, h4, h5⟩

/-- The invariant holds in every reachable state. -/
theorem clientInv_run (s : ClientState) (hs : ClientInv s)
    (acts : List Act) : ClientInv (run s acts) := by
  induction acts generalizing s with
  | nil => exact hs
  | cons a as ih => exact ih (step s a) (clientInv_step s a hs)

/-- C2: in every state the modelled Session Client can reach, the first
frame written on the current connection (if any frame has been written)
is the `Setup` frame — which only the client itself writes, on transport
open — and until `SetupComplete` has been received nothing but the
`Setup` frame has been written: no `clientContent`, `realtimeInput` or
`toolResponse` frame precedes it. -/
theorem setup_first (acts : List Act) :
    (∀ f, (run clientInit acts).sent.head? = some f →
      f = ClientFrame.setupFrame) ∧
    ((run clientInit acts).setupDone = false →
      ∀ f ∈ (run clientInit acts).sent, f = ClientFrame.setupFrame) := by
  have h := clientInv_run clientInit clientInv_init acts
  exact ⟨h.1, h.2.1⟩

/-- Witness for C2: after connect and transport open (no `SetupComplete`
yet) the one frame on the wire is the `Setup` frame, and it is the head
of the outbound sequence. -/
theorem setup_first_witness :
    (run clientInit [Act.connectCall, Act.transportOpened]).sent.head? =
      some ClientFrame.setupFrame ∧
    ClientFrame.setupFrame = ClientFrame.setupFrame :=
  ⟨by decide,
   (setup_first [Act.connectCall, Act.transportOpened]).1
     ClientFrame.setupFrame (by decide)⟩

/-- C5: an inbound frame whose top-level key decodes to no known variant
makes the Session Client emit exactly one `log` event and nothing else:
Connection State, the outbound frame list, the handshake flag and the
transport are all unchanged — so no `close` is emitted, nothing is
thrown (the embedding is total), and subsequent frames are dispatched
exactly as they would have been. -/
theorem parse_failure_logged (s : ClientState) (key : String)
    (hup : s.transportUp = true)
    (hbad : decode key = InMsg.parseError) :
    (step s (Act.recvRaw key)).conn = s.conn ∧
    (step s (Act.recvRaw key)).sent = s.sent ∧
    (step s (Act.recvRaw key)).setupDone = s.setupDone ∧
    (step s (Act.recvRaw key)).transportUp = s.transportUp ∧
    (step s (Act.recvRaw key)).events = s.events ++ [Ev.logEv] := by
  have hnot : ¬s.transportUp = false := by simp [hup]
  simp [step, hnot, hbad]

/-- Witness for C5: a frame keyed "bogus" on a healthy open session only
appends a `log` event. -/
theorem parse_failure_logged_witness :
    openSession.transportUp = true ∧
    decode "bogus" = InMsg.parseError ∧
    (step openSession (Act.recvRaw "bogus")).events =
      openSession.events ++ [Ev.logEv] :=
  ⟨rfl, by decide,
   (parse_failure_logged openSession "bogus" rfl (by decide)).2.2.2.2⟩

end LiveConsole
